import Mathlib

/-!
Shallow embedding of the batch OCR client in
src/recognize_with_transkribus.py.

The script submits images to a remote recognition API, polls each submitted
process until it leaves the non-terminal status set, writes the terminal
payload to a per-item destination file, and keeps three counters
(processed / failed / skipped) plus a sticky quota flag.  Network responses
and the filesystem are modelled as explicit oracles and state:

* a remote status payload is a status string plus an opaque body;
* the response to one submission request is a `SubmitResp`;
* the responses to the successive status requests of one item form a
  `List (Option Payload)`, a `none` standing for a connection error
  caught inside `check_processing_status`;
* the filesystem is an association list from paths to contents, and the
  set of created directories is a list of paths;
* each run of `process_image` also produces a trace of `Event`s
  (requests issued, sleeps, directory creation, file write), from which
  the timing claims are stated.

Python `assert` statements become `Except.error` values that the pipeline
does not catch, mirroring how an `AssertionError` propagates out of
`process_image` and aborts `asyncio.gather`.
-/

namespace Transkribus

/-- Remote status payload: the `status` field consulted by the poll loop and
an opaque remainder of the JSON body. -/
structure Payload where
  status : String
  body : Nat
deriving DecidableEq

/-- An image source as passed to `submit_image_for_processing`: the script
reads strings from the task file, but the signature also admits paths. -/
inductive Source where
  | str (s : String)
  | path (p : String)
deriving DecidableEq

/-- Outcome of the one submission POST, as distinguished by the script:
HTTP 200 with a process id, HTTP 429 (quota exhausted), any other status,
or a connection error caught inside the function. -/
inductive SubmitResp where
  | ok (pid : String)
  | quota
  | otherErr
  | connErr
deriving DecidableEq

/-- The two assertion failures that can escape `submit_image_for_processing`:
an http-prefixed string that does not parse as a URL, and a local image file
that does not exist. -/
inductive PErr where
  | badUrl (s : String)
  | missingFile (p : String)
deriving DecidableEq

/-- Split a character list at the first "://" separator, returning the scheme
part and the remainder. -/
def splitScheme : List Char → Option (List Char × List Char)
  | [] => none
  | (':') :: ('/') :: ('/') :: rest => some ([], rest)
  | c :: rest =>
      match splitScheme rest with
      | some (sch, tail) => some (c :: sch, tail)
      | none => none

/-- Model of `urlparse`-based validation: the URL must have a nonempty scheme
before a "://" separator and a nonempty network location after it. -/
def validate_url (url : String) : Bool :=
  match splitScheme url.data with
  | some (sch, tail) => !sch.isEmpty && !(tail.takeWhile (fun c => c ≠ ('/'))).isEmpty
  | none => false

/-- Model of `String.startsWith` for the "http" test of the submission
branch, via a structurally recursive character-list comparison. -/
def startsWithHttp (s : String) : Bool :=
  List.isPrefixOf (("http").data) s.data

/-- UTF-8 encoding of one character as byte values. -/
def utf8Encode (c : Char) : List Nat :=
  let n := c.toNat
  if n < 128 then [n]
  else if n < 2048 then [192 + n / 64, 128 + n % 64]
  else if n < 65536 then [224 + n / 4096, 128 + n / 64 % 64, 128 + n % 64]
  else [240 + n / 262144, 128 + n / 4096 % 64, 128 + n / 64 % 64, 128 + n % 64]

/-- The base64 alphabet. -/
def b64char (n : Nat) : Char :=
  ("ABCDEFGHIJKLMNOPQRSTUVWXYZabcdefghijklmnopqrstuvwxyz0123456789+/").data.getD n ('A')

/-- Standard base64 of a byte sequence, three bytes at a time with padding. -/
def b64encodeBytes : List Nat → String
  | [] => ("")
  | [a] =>
      String.mk [b64char (a / 4), b64char (a % 4 * 16), ('='), ('=')]
  | [a, b] =>
      String.mk [b64char (a / 4), b64char (a % 4 * 16 + b / 16), b64char (b % 16 * 4), ('=')]
  | a :: b :: c :: rest =>
      String.mk [b64char (a / 4), b64char (a % 4 * 16 + b / 16),
        b64char (b % 16 * 4 + c / 64), b64char (c % 64)] ++ b64encodeBytes rest

/-- Model of `get_image_as_base64`: base64 of the UTF-8 bytes of the file
content (the script reads the file and base64-encodes its bytes). -/
def get_image_as_base64 (content : String) : String :=
  b64encodeBytes ((content.data.map utf8Encode).flatten)

/-- The image part of the submission request body: either a remote URL or an
embedded base64 payload. -/
inductive ImageField where
  | imageUrl (u : String)
  | base64Data (d : String)
deriving DecidableEq

/-- What one call to `submit_image_for_processing` did when no assertion
fired: the request body it sent, the process id returned (on HTTP 200), and
whether the response set the global quota flag (HTTP 429). -/
structure SubmitOut where
  field : ImageField
  processId : Option String
  quotaHit : Bool
deriving DecidableEq

/-- The common tail of `submit_image_for_processing` once the request body is
built: the POST is issued and the response is dispatched on its status. -/
def submitSend (fld : ImageField) (resp : SubmitResp) : SubmitOut :=
  match resp with
  | SubmitResp.ok pid => ⟨fld, some pid, false⟩
  | SubmitResp.quota => ⟨fld, none, true⟩
  | SubmitResp.otherErr => ⟨fld, none, false⟩
  | SubmitResp.connErr => ⟨fld, none, false⟩

/-- The local-file branch of `submit_image_for_processing`: assert that the
file exists, then embed its content as base64.  `localFiles` is the
filesystem of readable image files. -/
def submitLocal (localFiles : List (String × String)) (resp : SubmitResp)
    (p : String) : Except PErr SubmitOut :=
  match localFiles.lookup p with
  | none => Except.error (PErr.missingFile p)
  | some content => Except.ok (submitSend (ImageField.base64Data (get_image_as_base64 content)) resp)

/-- Model of `submit_image_for_processing`: a string beginning with "http" is
sent as a remote URL (after the URL-validity assertion); any other source is
treated as a local path that must exist and is embedded as base64. -/
def submit_image_for_processing (localFiles : List (String × String))
    (resp : SubmitResp) (image : Source) : Except PErr SubmitOut :=
  match image with
  | Source.str s =>
      if startsWithHttp s then
        if validate_url s then Except.ok (submitSend (ImageField.imageUrl s) resp)
        else Except.error (PErr.badUrl s)
      else submitLocal localFiles resp s
  | Source.path p => submitLocal localFiles resp p

/-- Membership of a status string in the non-terminal set of the poll loop. -/
def nonTerminal (s : String) : Bool :=
  s == ("CREATED") || s == ("WAITING") || s == ("RUNNING")

/-- Events recorded by a pipeline run, from which request counts and timings
are computed. -/
inductive Event where
  | submitReq
  | statusReq
  | sleepEv (d : Nat)
  | mkdirEv (dir : String)
  | writeEv (dest : String) (p : Payload)
deriving DecidableEq

/-- The while-loop of `process_image`: `cur` is the most recent status
response, `rest` the oracle of responses to further status requests.  Result
`none` means the oracle was exhausted while the status was still
non-terminal (the real loop would keep polling); `some none` means a status
request returned a connection error; `some (some p)` means the loop exited
on terminal payload `p`.  Each iteration sleeps 5 and issues one request. -/
def pollLoopAux : Option Payload → List (Option Payload) → Option (Option Payload) × List Event
  | some p, rest =>
      if nonTerminal p.status then
        match rest with
        | [] => (none, [])
        | r :: rs =>
            let res := pollLoopAux r rs
            (res.1, Event.sleepEv 5 :: Event.statusReq :: res.2)
      else (some (some p), [])
  | none, _ => (some none, [])

/-- The run counters kept in the global `counts` dict. -/
structure Counts where
  processed : Nat
  failed : Nat
  skipped : Nat
deriving DecidableEq

/-- Global state threaded through the run: the counters, the sticky
`no_credits` flag, the output filesystem (path to written payload), and the
set of directories created with mkdir. -/
structure RunState where
  counts : Counts
  no_credits : Bool
  files : List (String × Payload)
  dirs : List String
deriving DecidableEq

/-- Terminal dispositions of one pipeline, matching the return points of
`process_image`. -/
inductive Disposition where
  | failedNoCredits
  | skipped
  | submitFailed
  | pollFailed
  | processedOk
deriving DecidableEq

/-- Result of one `process_image` call: a terminal disposition with the new
state, an uncaught assertion error, or a run whose poll oracle was exhausted
before the loop exited. -/
inductive PRes where
  | done (d : Disposition) (st : RunState)
  | raised (e : PErr) (st : RunState)
  | hung (st : RunState)
deriving DecidableEq

/-- Split a character list on a separator character. -/
def splitChar (sep : Char) : List Char → List (List Char)
  | [] => [[]]
  | x :: xs =>
      let r := splitChar sep xs
      if x = sep then [] :: r
      else
        match r with
        | [] => [[x]]
        | g :: gs => (x :: g) :: gs

/-- Join character-list components with a separator character. -/
def joinWith (sep : Char) : List (List Char) → List Char
  | [] => []
  | [g] => g
  | g :: gs => g ++ sep :: joinWith sep gs

/-- Model of `Path.parent` on slash-separated path strings: drop the final
path component. -/
def parentDir (path : String) : String :=
  String.mk (joinWith ('/') ((splitChar ('/') path.data).dropLast))

/-- The per-item oracle: the submission response and the successive status
responses. -/
structure ItemEnv where
  submitResp : SubmitResp
  polls : List (Option Payload)
deriving DecidableEq

/-- Increment the failed counter. -/
def addFailed (st : RunState) : RunState :=
  { st with counts := { st.counts with failed := st.counts.failed + 1 } }

/-- Increment the skipped counter. -/
def addSkipped (st : RunState) : RunState :=
  { st with counts := { st.counts with skipped := st.counts.skipped + 1 } }

/-- Increment the processed counter. -/
def addProcessed (st : RunState) : RunState :=
  { st with counts := { st.counts with processed := st.counts.processed + 1 } }

/-- Model of `process_image`: check the quota flag, check for an existing
destination, create the parent directory, submit, poll until terminal, and
write the terminal payload, incrementing exactly one counter on each
terminal disposition. -/
def process_image (localFiles : List (String × String)) (env : ItemEnv)
    (image : Source) (output_path : String) (st : RunState) : PRes × List Event :=
  if st.no_credits then
    (PRes.done Disposition.failedNoCredits (addFailed st), [])
  else if (st.files.lookup output_path).isSome then
    (PRes.done Disposition.skipped (addSkipped st), [])
  else
    let st1 : RunState := { st with dirs := parentDir output_path :: st.dirs }
    match submit_image_for_processing localFiles env.submitResp image with
    | Except.error e => (PRes.raised e st1, [Event.mkdirEv (parentDir output_path)])
    | Except.ok out =>
        let st2 : RunState := { st1 with no_credits := st1.no_credits || out.quotaHit }
        match out.processId with
        | none =>
            (PRes.done Disposition.submitFailed (addFailed st2),
             [Event.mkdirEv (parentDir output_path), Event.submitReq])
        | some _pid =>
            match env.polls with
            | [] => (PRes.hung st2, [Event.mkdirEv (parentDir output_path), Event.submitReq])
            | r :: rs =>
                let res := pollLoopAux r rs
                let head : List Event :=
                  [Event.mkdirEv (parentDir output_path), Event.submitReq,
                   Event.statusReq, Event.sleepEv 5]
                match res.1 with
                | none => (PRes.hung st2, head ++ res.2)
                | some none =>
                    (PRes.done Disposition.pollFailed (addFailed st2), head ++ res.2)
                | some (some p) =>
                    (PRes.done Disposition.processedOk
                      { st2 with
                        counts := { st2.counts with processed := st2.counts.processed + 1 },
                        files := (output_path, p) :: st2.files },
                     head ++ res.2 ++ [Event.writeEv output_path p])

/-- One work item from the task file: the image source and its destination. -/
structure WorkItem where
  image : Source
  dest : String
deriving DecidableEq

/-- Result of a whole run: all pipelines terminal, or the run aborted by an
uncaught assertion, or stalled on an exhausted poll oracle. -/
inductive RunRes where
  | finished (st : RunState)
  | aborted (e : PErr) (st : RunState)
  | stalled (st : RunState)
deriving DecidableEq

/-- A run over a list of work items, each with its network oracle, threading
the global state and concatenating traces.  An uncaught assertion aborts the
run, as the exception propagates out of asyncio.gather. -/
def runItems (localFiles : List (String × String)) :
    List (WorkItem × ItemEnv) → RunState → RunRes × List Event
  | [], st => (RunRes.finished st, [])
  | (w, env) :: rest, st =>
      match process_image localFiles env w.image w.dest st with
      | (PRes.done _ st1, evs) =>
          let r := runItems localFiles rest st1
          (r.1, evs ++ r.2)
      | (PRes.raised e st1, evs) => (RunRes.aborted e st1, evs)
      | (PRes.hung st1, evs) => (RunRes.stalled st1, evs)

/-- The optional item-count limit applied to the parsed task list. -/
def applyLimit (limit : Option Nat) (items : List (WorkItem × ItemEnv)) :
    List (WorkItem × ItemEnv) :=
  match limit with
  | none => items
  | some l => items.take l

/-- Sum of the three counters. -/
def countsTotal (c : Counts) : Nat :=
  c.processed + c.failed + c.skipped

/-- Exactly one of the three counters was incremented exactly once. -/
def oneIncrement (c c2 : Counts) : Prop :=
  (c2.processed = c.processed + 1 ∧ c2.failed = c.failed ∧ c2.skipped = c.skipped) ∨
  (c2.failed = c.failed + 1 ∧ c2.processed = c.processed ∧ c2.skipped = c.skipped) ∨
  (c2.skipped = c.skipped + 1 ∧ c2.processed = c.processed ∧ c2.failed = c.failed)

/-- Events of n iterations of the poll while-loop: each iteration sleeps 5
and then issues one status request. -/
def pollEvents : Nat → List Event
  | 0 => []
  | n + 1 => Event.sleepEv 5 :: Event.statusReq :: pollEvents n

/-- Total sleep duration in a trace. -/
def sleepSum : List Event → Nat
  | [] => 0
  | Event.sleepEv d :: r => d + sleepSum r
  | _ :: r => sleepSum r

/-- Annotate each event of a trace with the sleep time elapsed before it,
starting from time t. -/
def withTimes : Nat → List Event → List (Nat × Event)
  | _, [] => []
  | t, Event.sleepEv d :: rest => (t, Event.sleepEv d) :: withTimes (t + d) rest
  | t, e :: rest => (t, e) :: withTimes t rest

/-- Project a timed event to its time when it is a status request. -/
def statusProj (te : Nat × Event) : Option Nat :=
  match te.2 with
  | Event.statusReq => some te.1
  | _ => none

/-- Project a timed event to its time when it is a submission request. -/
def submitProj (te : Nat × Event) : Option Nat :=
  match te.2 with
  | Event.submitReq => some te.1
  | _ => none

/-- Times at which the status requests of a trace are issued. -/
def statusTimes (evs : List Event) : List Nat :=
  (withTimes 0 evs).filterMap statusProj

/-- Times at which the submission requests of a trace are issued. -/
def submitTimes (evs : List Event) : List Nat :=
  (withTimes 0 evs).filterMap submitProj

/-- Whether consecutive elements of a list are separated by exactly 5. -/
def gaps5 : List Nat → Bool
  | a :: b :: rest => (b == a + 5) && gaps5 (b :: rest)
  | _ => true

/-- The poll timing as claimed: the first status request comes only after an
initial delay following submission, and consecutive status requests are
separated by exactly 5 time units. -/
def pollTimingAsClaimed (evs : List Event) : Prop :=
  (submitTimes evs).headD 0 < (statusTimes evs).headD 0 ∧
  gaps5 (statusTimes evs) = true

/-- The refresh period of `token_refresh_task`: computed once, before the
loop, as int(expires_in * 0.9) of the initial token. -/
def refresh_period (expires0 : Nat) : Nat :=
  expires0 * 9 / 10

/-- Time at which the k-th renewal fires: the task sleeps the fixed period
between consecutive renewals, so renewal k fires after k sleeps. -/
def renewal_time (expires0 : Nat) (k : Nat) : Nat :=
  k * refresh_period expires0

/-- Issue time of the k-th token: token 0 is issued at time 0, and token k
(k ≥ 1) is issued by the k-th renewal. -/
def token_issue_time (expires0 : Nat) (k : Nat) : Nat :=
  renewal_time expires0 k

/-- Nominal expiry of the k-th token, given the issued lifetime of each
token in sequence. -/
def token_expiry (lifetimes : Nat → Nat) (k : Nat) : Nat :=
  token_issue_time (lifetimes 0) k + lifetimes k

/-- Abstract state of `gather_with_concurrency` over k pipelines: how many
have not yet acquired the semaphore, how many hold it but have not yet
submitted, how many hold it between submission and their terminal
disposition, how many are finished, and the semaphore value. -/
structure GatherState where
  waiting : Nat
  preSubmit : Nat
  inflight : Nat
  finished : Nat
  sem : Nat
deriving DecidableEq

/-- Transitions of the bounded-concurrency runner: a pipeline acquires the
semaphore before it begins, may then submit, and releases the semaphore only
at its terminal disposition, whether it ended before submission (skipped or
failed on the quota flag) or after. -/
inductive GatherStep : GatherState → GatherState → Prop where
  | acquire (s : GatherState) (hw : 0 < s.waiting) (hs : 0 < s.sem) :
      GatherStep s ⟨s.waiting - 1, s.preSubmit + 1, s.inflight, s.finished, s.sem - 1⟩
  | submitStep (s : GatherState) (hp : 0 < s.preSubmit) :
      GatherStep s ⟨s.waiting, s.preSubmit - 1, s.inflight + 1, s.finished, s.sem⟩
  | finishEarly (s : GatherState) (hp : 0 < s.preSubmit) :
      GatherStep s ⟨s.waiting, s.preSubmit - 1, s.inflight, s.finished + 1, s.sem + 1⟩
  | finishLate (s : GatherState) (hi : 0 < s.inflight) :
      GatherStep s ⟨s.waiting, s.preSubmit, s.inflight - 1, s.finished + 1, s.sem + 1⟩

/-- Initial state of `gather_with_concurrency`: semaphore of size n, k
pipelines not yet started. -/
def gatherInit (n k : Nat) : GatherState :=
  ⟨k, 0, 0, 0, n⟩

/-- States reachable by the bounded-concurrency runner from its initial
state. -/
inductive GatherReach (n k : Nat) : GatherState → Prop where
  | init : GatherReach n k (gatherInit n k)
  | step {s t : GatherState} : GatherReach n k s → GatherStep s t → GatherReach n k t

/-! ### Helper lemmas about the submission call -/

theorem submitSend_field (fld : ImageField) (r : SubmitResp) :
    (submitSend fld r).field = fld := by
  cases r <;> rfl

theorem submitLocal_ok_shape (lf : List (String × String)) (r : SubmitResp) (p : String)
    (o : SubmitOut) (h : submitLocal lf r p = Except.ok o) : o = submitSend o.field r := by
  unfold submitLocal at h
  split at h
  · exact Except.noConfusion h
  · injection h with h1
    subst h1
    rw [submitSend_field]

theorem submit_ok_shape (lf : List (String × String)) (r : SubmitResp) (img : Source)
    (o : SubmitOut) (h : submit_image_for_processing lf r img = Except.ok o) :
    o = submitSend o.field r := by
  cases img with
  | str s =>
      simp only [submit_image_for_processing] at h
      split at h
      · split at h
        · injection h with h1
          subst h1
          rw [submitSend_field]
        · exact Except.noConfusion h
      · exact submitLocal_ok_shape lf r s o h
  | path p => exact submitLocal_ok_shape lf r p o h

theorem submitSend_quota (fld : ImageField) :
    submitSend fld SubmitResp.quota = ⟨fld, none, true⟩ := rfl

theorem submitSend_ok (fld : ImageField) (pid : String) :
    submitSend fld (SubmitResp.ok pid) = ⟨fld, some pid, false⟩ := rfl

theorem submitSend_connErr (fld : ImageField) :
    submitSend fld SubmitResp.connErr = ⟨fld, none, false⟩ := rfl

theorem submitSend_otherErr (fld : ImageField) :
    submitSend fld SubmitResp.otherErr = ⟨fld, none, false⟩ := rfl

/-! ### Helper lemmas about the poll loop -/

theorem pollLoopAux_terminal (p : Payload) (junk : List (Option Payload))
    (hp : nonTerminal p.status = false) :
    pollLoopAux (some p) junk = (some (some p), []) := by
  rw [pollLoopAux.eq_def]
  simp [hp]

theorem pollLoopAux_none (junk : List (Option Payload)) :
    pollLoopAux none junk = (some none, []) := by
  rw [pollLoopAux.eq_def]

theorem pollLoopAux_run (ps : List Payload) :
    ∀ (q : Payload) (r0 : Option Payload) (junk : List (Option Payload)) (fin : Option Payload),
      (∀ x ∈ q :: ps, nonTerminal x.status = true) →
      pollLoopAux r0 junk = (some fin, []) →
      pollLoopAux (some q) (ps.map some ++ r0 :: junk) =
        (some fin, pollEvents (ps.length + 1)) := by
  induction ps with
  | nil =>
      intro q r0 junk fin h h0
      have hq : nonTerminal q.status = true := h q (by simp)
      rw [pollLoopAux.eq_def]
      simp [hq, h0, pollEvents]
  | cons x xs ih =>
      intro q r0 junk fin h h0
      have hq : nonTerminal q.status = true := h q (by simp)
      have hx : ∀ y ∈ x :: xs, nonTerminal y.status = true :=
        fun y hy => h y (List.mem_cons_of_mem q hy)
      have hrec := ih x r0 junk fin hx h0
      simp only [List.map_cons, List.cons_append, List.length_cons]
      rw [pollLoopAux.eq_def]
      simp [hq, hrec, pollEvents]

/-! ### Branch lemmas for process_image -/

theorem process_image_no_credits (lf : List (String × String)) (env : ItemEnv)
    (img : Source) (outp : String) (st : RunState) (h : st.no_credits = true) :
    process_image lf env img outp st =
      (PRes.done Disposition.failedNoCredits (addFailed st), []) := by
  simp [process_image, h]

theorem process_image_skip (lf : List (String × String)) (env : ItemEnv)
    (img : Source) (outp : String) (st : RunState) (h1 : st.no_credits = false)
    (h2 : (st.files.lookup outp).isSome = true) :
    process_image lf env img outp st =
      (PRes.done Disposition.skipped (addSkipped st), []) := by
  simp [process_image, h1, h2]

theorem process_image_raised (lf : List (String × String)) (env : ItemEnv)
    (img : Source) (outp : String) (st : RunState) (e : PErr)
    (h1 : st.no_credits = false) (h2 : st.files.lookup outp = none)
    (h3 : submit_image_for_processing lf env.submitResp img = Except.error e) :
    process_image lf env img outp st =
      (PRes.raised e { st with dirs := parentDir outp :: st.dirs },
       [Event.mkdirEv (parentDir outp)]) := by
  simp [process_image, h1, h2, h3]

theorem process_image_submit_failed (lf : List (String × String)) (env : ItemEnv)
    (img : Source) (outp : String) (st : RunState) (o : SubmitOut)
    (h1 : st.no_credits = false) (h2 : st.files.lookup outp = none)
    (h3 : submit_image_for_processing lf env.submitResp img = Except.ok o)
    (h4 : o.processId = none) :
    process_image lf env img outp st =
      (PRes.done Disposition.submitFailed
        (addFailed { st with no_credits := o.quotaHit, dirs := parentDir outp :: st.dirs }),
       [Event.mkdirEv (parentDir outp), Event.submitReq]) := by
  simp [process_image, h1, h2, h3, h4, addFailed]

theorem process_image_processed (lf : List (String × String)) (env : ItemEnv)
    (img : Source) (outp : String) (st : RunState) (o : SubmitOut) (pid : String)
    (ps : List Payload) (p : Payload) (junk : List (Option Payload))
    (h1 : st.no_credits = false) (h2 : st.files.lookup outp = none)
    (h3 : submit_image_for_processing lf env.submitResp img = Except.ok o)
    (h4 : o.processId = some pid)
    (h5 : env.polls = ps.map some ++ some p :: junk)
    (h6 : ∀ x ∈ ps, nonTerminal x.status = true)
    (h7 : nonTerminal p.status = false) :
    process_image lf env img outp st =
      (PRes.done Disposition.processedOk
        { st with
          counts := { st.counts with processed := st.counts.processed + 1 },
          no_credits := o.quotaHit,
          files := (outp, p) :: st.files,
          dirs := parentDir outp :: st.dirs },
       [Event.mkdirEv (parentDir outp), Event.submitReq, Event.statusReq, Event.sleepEv 5]
         ++ pollEvents ps.length ++ [Event.writeEv outp p]) := by
  match ps, h6 with
  | [], _ =>
      simp only [List.map_nil, List.nil_append] at h5
      simp [process_image, h1, h2, h3, h4, h5, pollLoopAux_terminal p junk h7, pollEvents]
  | q :: qs, h6 =>
      have hrun := pollLoopAux_run qs q (some p) junk (some p) h6
        (pollLoopAux_terminal p junk h7)
      simp only [List.map_cons, List.cons_append] at h5
      simp [process_image, h1, h2, h3, h4, h5, hrun, pollEvents]

theorem process_image_poll_failed (lf : List (String × String)) (env : ItemEnv)
    (img : Source) (outp : String) (st : RunState) (o : SubmitOut) (pid : String)
    (ps : List Payload) (junk : List (Option Payload))
    (h1 : st.no_credits = false) (h2 : st.files.lookup outp = none)
    (h3 : submit_image_for_processing lf env.submitResp img = Except.ok o)
    (h4 : o.processId = some pid)
    (h5 : env.polls = ps.map some ++ none :: junk)
    (h6 : ∀ x ∈ ps, nonTerminal x.status = true) :
    process_image lf env img outp st =
      (PRes.done Disposition.pollFailed
        (addFailed { st with no_credits := o.quotaHit, dirs := parentDir outp :: st.dirs }),
       [Event.mkdirEv (parentDir outp), Event.submitReq, Event.statusReq, Event.sleepEv 5]
         ++ pollEvents ps.length) := by
  match ps, h6 with
  | [], _ =>
      simp only [List.map_nil, List.nil_append] at h5
      simp [process_image, h1, h2, h3, h4, h5, pollLoopAux_none, pollEvents, addFailed]
  | q :: qs, h6 =>
      have hrun := pollLoopAux_run qs q none junk none h6 (pollLoopAux_none junk)
      simp only [List.map_cons, List.cons_append] at h5
      simp [process_image, h1, h2, h3, h4, h5, hrun, pollEvents, addFailed]

/-! ### Run-level helper lemmas -/

theorem oneIncrement_total (c c2 : Counts) (h : oneIncrement c c2) :
    countsTotal c2 = countsTotal c + 1 := by
  rcases h with ⟨h1, h2, h3⟩ | ⟨h1, h2, h3⟩ | ⟨h1, h2, h3⟩ <;>
    simp [countsTotal, h1, h2, h3] <;> omega

theorem process_image_done_oneIncrement (lf : List (String × String)) (env : ItemEnv)
    (img : Source) (outp : String) (st : RunState) (d : Disposition) (st2 : RunState)
    (evs : List Event) (h : process_image lf env img outp st = (PRes.done d st2, evs)) :
    oneIncrement st.counts st2.counts := by
  simp only [process_image] at h
  repeat' split at h
  all_goals
    simp_all only [Prod.mk.injEq, PRes.done.injEq, reduceCtorEq, and_false, false_and]
  all_goals
    obtain ⟨⟨-, hst⟩, -⟩ := h
  all_goals
    subst hst
  all_goals
    simp [oneIncrement, addFailed, addSkipped, addProcessed]

theorem runItems_finished_sum (lf : List (String × String)) (items : List (WorkItem × ItemEnv)) :
    ∀ (st st2 : RunState) (evs : List Event),
      runItems lf items st = (RunRes.finished st2, evs) →
      countsTotal st2.counts = countsTotal st.counts + items.length := by
  induction items with
  | nil =>
      intro st st2 evs h
      simp only [runItems, Prod.mk.injEq, RunRes.finished.injEq] at h
      obtain ⟨hst, -⟩ := h
      subst hst
      simp
  | cons we rest ih =>
      intro st st2 evs h
      obtain ⟨w, env⟩ := we
      simp only [runItems] at h
      split at h
      case h_1 d st1 evs1 heq =>
        simp only [Prod.mk.injEq] at h
        obtain ⟨hfin, -⟩ := h
        have hrest : runItems lf rest st1 = (RunRes.finished st2, (runItems lf rest st1).2) := by
          rw [← hfin]
        have hsum := ih st1 st2 (runItems lf rest st1).2 hrest
        have hone := process_image_done_oneIncrement lf env w.image w.dest st d st1 evs1 heq
        have htot := oneIncrement_total st.counts st1.counts hone
        simp only [List.length_cons]
        omega
      case h_2 e st1 evs1 heq =>
        simp only [Prod.mk.injEq, reduceCtorEq, false_and] at h
      case h_3 st1 evs1 heq =>
        simp only [Prod.mk.injEq, reduceCtorEq, false_and] at h

theorem runItems_no_credits (lf : List (String × String)) (items : List (WorkItem × ItemEnv)) :
    ∀ (st : RunState), st.no_credits = true →
      runItems lf items st =
        (RunRes.finished
          ⟨⟨st.counts.processed, st.counts.failed + items.length, st.counts.skipped⟩,
           st.no_credits, st.files, st.dirs⟩, []) := by
  induction items with
  | nil =>
      intro st hst
      obtain ⟨⟨p, f, s⟩, nc, fl, dr⟩ := st
      simp [runItems]
  | cons we rest ih =>
      intro st hst
      obtain ⟨w, env⟩ := we
      simp only [runItems, process_image_no_credits lf env w.image w.dest st hst]
      rw [ih (addFailed st) (by simp [addFailed, hst])]
      simp [addFailed, hst]
      omega

/-! ### Counting and timing lemmas for the poll trace -/

theorem pollEvents_count_status (n : Nat) :
    (pollEvents n).count Event.statusReq = n := by
  induction n with
  | zero => rfl
  | succ m ih => simp [pollEvents, List.count_cons, ih]

theorem withTimes_statusProj_pollEvents (n : Nat) :
    ∀ (t : Nat) (tail : List Event),
      (withTimes t (pollEvents n ++ tail)).filterMap statusProj =
        (List.range n).map (fun i => t + 5 * (i + 1)) ++
          (withTimes (t + 5 * n) tail).filterMap statusProj := by
  induction n with
  | zero =>
      intro t tail
      simp [pollEvents]
  | succ m ih =>
      intro t tail
      have harith : t + 5 + 5 * m = t + 5 * (m + 1) := by ring
      simp only [pollEvents, List.cons_append, withTimes, List.filterMap_cons, statusProj,
        List.append_eq, ih (t + 5) tail, harith, List.range_succ_eq_map, List.map_cons,
        List.map_map, List.cons.injEq]
      refine ⟨trivial, ?_⟩
      congr 1
      apply List.map_congr_left
      intro i hi
      simp only [Function.comp_apply]
      omega

theorem withTimes_submitProj_pollEvents (n : Nat) :
    ∀ (t : Nat) (tail : List Event),
      (withTimes t (pollEvents n ++ tail)).filterMap submitProj =
        (withTimes (t + 5 * n) tail).filterMap submitProj := by
  induction n with
  | zero =>
      intro t tail
      simp [pollEvents]
  | succ m ih =>
      intro t tail
      have harith : t + 5 + 5 * m = t + 5 * (m + 1) := by ring
      simp only [pollEvents, List.cons_append, withTimes, List.filterMap_cons, submitProj,
        List.append_eq]
      rw [ih (t + 5) tail, harith]

/-- The status-request times of a full successful poll trace: the first
status request is issued at the submission time itself, and iteration i of
the while loop issues its request 10 + 5i after it. -/
theorem statusTimes_trace (dir outp : String) (p : Payload) (n : Nat) :
    statusTimes ([Event.mkdirEv dir, Event.submitReq, Event.statusReq, Event.sleepEv 5]
        ++ pollEvents n ++ [Event.writeEv outp p]) =
      0 :: (List.range n).map (fun i => 10 + 5 * i) := by
  simp only [statusTimes, List.cons_append, List.nil_append, withTimes, List.filterMap_cons,
    statusProj, List.append_eq, Nat.zero_add]
  rw [withTimes_statusProj_pollEvents n 5 [Event.writeEv outp p]]
  simp only [withTimes, List.filterMap_cons, List.filterMap_nil, statusProj, List.append_nil,
    List.cons.injEq]
  refine ⟨trivial, ?_⟩
  apply List.map_congr_left
  intro i hi
  omega

/-- The submission-request times of a full successful poll trace: exactly one
submission request, at time 0. -/
theorem submitTimes_trace (dir outp : String) (p : Payload) (n : Nat) :
    submitTimes ([Event.mkdirEv dir, Event.submitReq, Event.statusReq, Event.sleepEv 5]
        ++ pollEvents n ++ [Event.writeEv outp p]) = [0] := by
  simp only [submitTimes, List.cons_append, List.nil_append, withTimes, List.filterMap_cons,
    submitProj, List.append_eq, Nat.zero_add]
  rw [withTimes_submitProj_pollEvents n 5 [Event.writeEv outp p]]
  simp [withTimes, submitProj]

/-! ### Semaphore and token-schedule helper lemmas -/

theorem gather_invariant (n k : Nat) (s : GatherState) (h : GatherReach n k s) :
    s.preSubmit + s.inflight + s.sem = n := by
  induction h with
  | init => simp [gatherInit]
  | step hr hstep ih =>
      cases hstep with
      | acquire hw hs => simp_all; omega
      | submitStep hp => simp_all; omega
      | finishEarly hp => simp_all; omega
      | finishLate hi => simp_all; omega

theorem refresh_period_lt (e : Nat) (h : 0 < e) : refresh_period e < e := by
  unfold refresh_period
  omega

/-! ### Claim theorems -/

/-- C1: in every run in which each pipeline reaches a terminal disposition
(no uncaught exception, no stalled poll), the final counters satisfy
processed + failed + skipped = the number of work items taken from the input
after applying the optional item-count limit; and every process_image call
that reaches a terminal disposition increments exactly one of the three
counters exactly once. -/
theorem C1_counters_conserved (lf : List (String × String)) (limit : Option Nat)
    (items : List (WorkItem × ItemEnv)) (st st2 : RunState) (evs : List Event)
    (hrun : runItems lf (applyLimit limit items) st = (RunRes.finished st2, evs)) :
    countsTotal st2.counts = countsTotal st.counts + (applyLimit limit items).length ∧
    ∀ (env : ItemEnv) (img : Source) (outp : String) (st3 : RunState) (d : Disposition)
      (st4 : RunState) (evs2 : List Event),
      process_image lf env img outp st3 = (PRes.done d st4, evs2) →
      oneIncrement st3.counts st4.counts := by
  refine ⟨runItems_finished_sum lf (applyLimit limit items) st st2 evs hrun, ?_⟩
  intro env img outp st3 d st4 evs2 h
  exact process_image_done_oneIncrement lf env img outp st3 d st4 evs2 h

theorem C1_counters_conserved_w :
    runItems [] (applyLimit (some 5)
        [(⟨Source.str ("http://h/a"), ("out/a.json")⟩,
          ⟨SubmitResp.ok ("p1"), [some ⟨("FINISHED"), 7⟩]⟩)])
      ⟨⟨0, 0, 0⟩, false, [], []⟩ =
      (RunRes.finished ⟨⟨1, 0, 0⟩, false, [(("out/a.json"), ⟨("FINISHED"), 7⟩)], [("out")]⟩,
       [Event.mkdirEv ("out"), Event.submitReq, Event.statusReq, Event.sleepEv 5,
        Event.writeEv ("out/a.json") ⟨("FINISHED"), 7⟩]) ∧
    countsTotal (⟨⟨1, 0, 0⟩, false, [(("out/a.json"), ⟨("FINISHED"), 7⟩)], [("out")]⟩
        : RunState).counts =
      countsTotal (⟨⟨0, 0, 0⟩, false, [], []⟩ : RunState).counts +
        (applyLimit (some 5)
          [(⟨Source.str ("http://h/a"), ("out/a.json")⟩,
            ⟨SubmitResp.ok ("p1"), [some ⟨("FINISHED"), 7⟩]⟩)]).length :=
  ⟨by decide,
   (C1_counters_conserved [] (some 5)
      [(⟨Source.str ("http://h/a"), ("out/a.json")⟩,
        ⟨SubmitResp.ok ("p1"), [some ⟨("FINISHED"), 7⟩]⟩)]
      ⟨⟨0, 0, 0⟩, false, [], []⟩
      ⟨⟨1, 0, 0⟩, false, [(("out/a.json"), ⟨("FINISHED"), 7⟩)], [("out")]⟩
      [Event.mkdirEv ("out"), Event.submitReq, Event.statusReq, Event.sleepEv 5,
       Event.writeEv ("out/a.json") ⟨("FINISHED"), 7⟩] (by decide)).1⟩

/-- C2: an HTTP 429 on a submission sets the credit-exhaustion flag, and
once the flag is set every remaining work item is counted as failed with no
submission request issued (the run trace from that point is empty of any
event), the flag remaining set for the rest of the run. -/
theorem C2_quota_short_circuit (lf : List (String × String)) :
    (∀ (env : ItemEnv) (img : Source) (outp : String) (st : RunState) (o : SubmitOut),
      st.no_credits = false → st.files.lookup outp = none →
      env.submitResp = SubmitResp.quota →
      submit_image_for_processing lf env.submitResp img = Except.ok o →
      ∃ st2 : RunState,
        process_image lf env img outp st =
          (PRes.done Disposition.submitFailed st2,
           [Event.mkdirEv (parentDir outp), Event.submitReq]) ∧
        st2.no_credits = true ∧ st2.counts.failed = st.counts.failed + 1) ∧
    (∀ (items : List (WorkItem × ItemEnv)) (st : RunState),
      st.no_credits = true →
      ∃ st2 : RunState,
        runItems lf items st = (RunRes.finished st2, []) ∧
        st2.no_credits = true ∧
        st2.counts.failed = st.counts.failed + items.length ∧
        st2.counts.processed = st.counts.processed ∧
        st2.counts.skipped = st.counts.skipped) := by
  constructor
  · intro env img outp st o h1 h2 henv hok
    have hsh := submit_ok_shape lf env.submitResp img o hok
    rw [henv] at hsh
    have hpid : o.processId = none := by rw [hsh]; rfl
    refine ⟨_, process_image_submit_failed lf env img outp st o h1 h2 hok hpid, ?_, ?_⟩
    · rw [hsh]
      simp [addFailed, submitSend]
    · simp [addFailed]
  · intro items st hst
    refine ⟨_, runItems_no_credits lf items st hst, hst, rfl, rfl, rfl⟩

theorem C2_quota_short_circuit_w :
    ((⟨⟨0, 0, 0⟩, false, [], []⟩ : RunState).no_credits = false) ∧
    ((⟨⟨0, 1, 0⟩, true, [], []⟩ : RunState).no_credits = true) ∧
    (∃ st2 : RunState,
      process_image [] ⟨SubmitResp.quota, []⟩ (Source.str ("http://h/a")) ("o/a.json")
          ⟨⟨0, 0, 0⟩, false, [], []⟩ =
        (PRes.done Disposition.submitFailed st2,
         [Event.mkdirEv (parentDir ("o/a.json")), Event.submitReq]) ∧
      st2.no_credits = true ∧ st2.counts.failed = 0 + 1) ∧
    (∃ st2 : RunState,
      runItems []
          [(⟨Source.str ("http://h/b"), ("o/b.json")⟩, ⟨SubmitResp.ok ("p1"), []⟩)]
          ⟨⟨0, 1, 0⟩, true, [], []⟩ =
        (RunRes.finished st2, []) ∧
      st2.no_credits = true ∧ st2.counts.failed = 1 + 1 ∧
      st2.counts.processed = 0 ∧ st2.counts.skipped = 0) :=
  ⟨rfl, rfl,
   (C2_quota_short_circuit []).1 ⟨SubmitResp.quota, []⟩ (Source.str ("http://h/a"))
     ("o/a.json") ⟨⟨0, 0, 0⟩, false, [], []⟩ ⟨ImageField.imageUrl ("http://h/a"), none, true⟩
     rfl rfl rfl rfl,
   (C2_quota_short_circuit []).2
     [(⟨Source.str ("http://h/b"), ("o/b.json")⟩, ⟨SubmitResp.ok ("p1"), []⟩)]
     ⟨⟨0, 1, 0⟩, true, [], []⟩ rfl⟩

/-- C3 counterexample: in a two-item run whose first item exhausts the quota
(HTTP 429) and whose second item's destination pre-exists, the second item
is counted as failed, not skipped: the final counters are 0 processed,
2 failed, 0 skipped, although a destination file pre-existed. -/
theorem C3_preexisting_cex :
    (runItems []
        [(⟨Source.str ("http://h/q"), ("out/q.json")⟩, ⟨SubmitResp.quota, []⟩),
         (⟨Source.str ("http://h/1"), ("out1.json")⟩,
          ⟨SubmitResp.ok ("p2"), [some ⟨("FINISHED"), 3⟩]⟩)]
        ⟨⟨0, 0, 0⟩, false, [(("out1.json"), ⟨("DONE"), 9⟩)], []⟩).1 =
      RunRes.finished
        ⟨⟨0, 2, 0⟩, true, [(("out1.json"), ⟨("DONE"), 9⟩)], [("out")]⟩ := by decide

/-- C3 amended: for every work item whose destination file already exists,
provided the credit-exhaustion flag is not set when the item is processed,
the pipeline issues no submission request (its trace is empty), counts the
item as skipped, and leaves the filesystem unchanged. -/
theorem C3_skip_amended (lf : List (String × String)) (env : ItemEnv) (img : Source)
    (outp : String) (st : RunState) (c : Payload)
    (h1 : st.no_credits = false) (h2 : st.files.lookup outp = some c) :
    process_image lf env img outp st =
      (PRes.done Disposition.skipped (addSkipped st), []) ∧
    (addSkipped st).files = st.files ∧
    (addSkipped st).counts.skipped = st.counts.skipped + 1 ∧
    (addSkipped st).counts.processed = st.counts.processed ∧
    (addSkipped st).counts.failed = st.counts.failed := by
  have h2s : (st.files.lookup outp).isSome = true := by rw [h2]; rfl
  exact ⟨process_image_skip lf env img outp st h1 h2s, rfl, rfl, rfl, rfl⟩

theorem C3_skip_amended_w :
    ((⟨⟨0, 0, 0⟩, false, [(("out1.json"), ⟨("DONE"), 9⟩)], []⟩ : RunState).no_credits
      = false) ∧
    process_image [] ⟨SubmitResp.ok ("p1"), []⟩ (Source.str ("img1.jpg")) ("out1.json")
        ⟨⟨0, 0, 0⟩, false, [(("out1.json"), ⟨("DONE"), 9⟩)], []⟩ =
      (PRes.done Disposition.skipped
        (addSkipped ⟨⟨0, 0, 0⟩, false, [(("out1.json"), ⟨("DONE"), 9⟩)], []⟩), []) :=
  ⟨rfl,
   (C3_skip_amended [] ⟨SubmitResp.ok ("p1"), []⟩ (Source.str ("img1.jpg")) ("out1.json")
     ⟨⟨0, 0, 0⟩, false, [(("out1.json"), ⟨("DONE"), 9⟩)], []⟩ ⟨("DONE"), 9⟩ rfl rfl).1⟩

/-- C4: with a concurrency limit of N pipelines, at no reachable state of the
bounded-concurrency runner are more than N pipelines simultaneously between
submission and persistence: the semaphore is acquired before a pipeline
begins and released only at its terminal disposition, and the number of
in-flight pipelines never exceeds N. -/
theorem C4_concurrency_bound (n k : Nat) (s : GatherState) (hn : 0 < n)
    (h : GatherReach n k s) : s.inflight ≤ n := by
  have hinv := gather_invariant n k s h
  omega

theorem C4_concurrency_bound_w :
    0 < 1 ∧ (gatherInit 1 2).inflight ≤ 1 :=
  ⟨by decide, C4_concurrency_bound 1 2 (gatherInit 1 2) (by decide) GatherReach.init⟩

/-- C6 counterexample: the refresh period is computed once from the initial
token's lifetime, not from the token currently in force.  With an initial
lifetime of 100 the task renews every 90 time units; if the first renewed
token has lifetime 50, it expires at 90 + 50 = 140, before the next renewal
at 180, so renewal is not invoked before each issued token's expiry. -/
theorem C6_renewal_cex :
    ¬ renewal_time ((fun j => if j = 0 then 100 else 50) 0) (1 + 1) <
        token_expiry (fun j => if j = 0 then 100 else 50) 1 := by decide

/-- C6 amended: the renewal task computes the refresh period once, as 90% of
the initial token's issued lifetime; renewal is invoked before the current
token's nominal expiry provided the initial lifetime is positive and every
issued token's lifetime is at least the initial token's lifetime. -/
theorem C6_renewal_amended (lifetimes : Nat → Nat) (k : Nat)
    (h0 : 0 < lifetimes 0) (hk : lifetimes 0 ≤ lifetimes k) :
    renewal_time (lifetimes 0) (k + 1) < token_expiry lifetimes k := by
  have hp : refresh_period (lifetimes 0) < lifetimes 0 := refresh_period_lt _ h0
  simp only [renewal_time, token_expiry, token_issue_time, Nat.succ_mul]
  exact Nat.add_lt_add_left (lt_of_lt_of_le hp hk) _

theorem C6_renewal_amended_w :
    0 < 100 ∧ renewal_time 100 (0 + 1) < token_expiry (fun _ => 100) 0 :=
  ⟨by decide, C6_renewal_amended (fun _ => 100) 0 (by decide) (by decide)⟩

/-- C5: for every successfully submitted work item (quota flag unset,
destination absent, submission returning a process id), when the status
responses are a run of non-terminal payloads followed by a first terminal
payload, the poll loop issues exactly one status request per non-terminal
response plus the initial one, stops at the first terminal payload without
consuming any later response, persists exactly that payload at the
destination, and counts the item as processed. -/
theorem C5_poll_until_terminal (lf : List (String × String)) (pid : String) (img : Source)
    (outp : String) (ps : List Payload) (p : Payload) (junk : List (Option Payload))
    (st : RunState) (o : SubmitOut)
    (h1 : st.no_credits = false) (h2 : st.files.lookup outp = none)
    (h3 : submit_image_for_processing lf (SubmitResp.ok pid) img = Except.ok o)
    (h6 : ∀ x ∈ ps, nonTerminal x.status = true)
    (h7 : nonTerminal p.status = false) :
    ∃ (st2 : RunState) (evs : List Event),
      process_image lf ⟨SubmitResp.ok pid, ps.map some ++ some p :: junk⟩ img outp st =
        (PRes.done Disposition.processedOk st2, evs) ∧
      st2.files.lookup outp = some p ∧
      st2.counts.processed = st.counts.processed + 1 ∧
      st2.counts.failed = st.counts.failed ∧
      st2.counts.skipped = st.counts.skipped ∧
      evs.count Event.statusReq = ps.length + 1 := by
  have hsh := submit_ok_shape lf (SubmitResp.ok pid) img o h3
  have hpid : o.processId = some pid := by rw [hsh]; rfl
  have heq := process_image_processed lf ⟨SubmitResp.ok pid, ps.map some ++ some p :: junk⟩
    img outp st o pid ps p junk h1 h2 h3 hpid rfl h6 h7
  refine ⟨_, _, heq, ?_, ?_, ?_, ?_, ?_⟩
  · simp [List.lookup]
  · rfl
  · rfl
  · rfl
  · simp [List.count_append, List.count_cons, pollEvents_count_status]

theorem C5_poll_until_terminal_w :
    ((⟨⟨0, 0, 0⟩, false, [], []⟩ : RunState).no_credits = false) ∧
    nonTerminal (Payload.mk ("FINISHED") 7).status = false ∧
    (∃ (st2 : RunState) (evs : List Event),
      process_image [] ⟨SubmitResp.ok ("p1"),
          [⟨("RUNNING"), 1⟩].map some ++ some ⟨("FINISHED"), 7⟩ :: []⟩
        (Source.str ("http://h/a")) ("out/a.json") ⟨⟨0, 0, 0⟩, false, [], []⟩ =
        (PRes.done Disposition.processedOk st2, evs) ∧
      st2.files.lookup ("out/a.json") = some ⟨("FINISHED"), 7⟩ ∧
      st2.counts.processed = 0 + 1 ∧
      st2.counts.failed = 0 ∧
      st2.counts.skipped = 0 ∧
      evs.count Event.statusReq = [Payload.mk ("RUNNING") 1].length + 1) :=
  ⟨rfl, rfl,
   C5_poll_until_terminal [] ("p1") (Source.str ("http://h/a")) ("out/a.json")
     [⟨("RUNNING"), 1⟩] ⟨("FINISHED"), 7⟩ [] ⟨⟨0, 0, 0⟩, false, [], []⟩
     ⟨ImageField.imageUrl ("http://h/a"), some ("p1"), false⟩
     rfl rfl rfl (by decide) rfl⟩

/-- C7 counterexample: in a concrete successful run the first status request
is issued at the submission time itself, with no initial delay, and the
first two status requests are 10 time units apart, so the claimed poll
timing (initial delay before the first request, all gaps of 5) is false. -/
theorem C7_poll_timing_cex :
    ¬ pollTimingAsClaimed
        (process_image [] ⟨SubmitResp.ok ("p1"),
            [some ⟨("RUNNING"), 1⟩, some ⟨("RUNNING"), 2⟩, some ⟨("FINISHED"), 7⟩]⟩
          (Source.str ("http://h/a")) ("out/a.json") ⟨⟨0, 0, 0⟩, false, [], []⟩).2 := by
  unfold pollTimingAsClaimed
  decide

/-- C7 amended: for every work item that passes the credit-exhaustion and
skip checks and is successfully submitted, the first status request is
issued immediately at submission time (no initial delay); the second status
request follows 10 time units after the first (the unconditional
post-submission sleep plus the loop-body sleep), and each later pair of
consecutive status requests is separated by 5 time units. -/
theorem C7_poll_timing_amended (lf : List (String × String)) (pid : String) (img : Source)
    (outp : String) (ps : List Payload) (p : Payload) (st : RunState) (o : SubmitOut)
    (h1 : st.no_credits = false) (h2 : st.files.lookup outp = none)
    (h3 : submit_image_for_processing lf (SubmitResp.ok pid) img = Except.ok o)
    (h6 : ∀ x ∈ ps, nonTerminal x.status = true)
    (h7 : nonTerminal p.status = false) :
    ∃ (st2 : RunState) (evs : List Event),
      process_image lf ⟨SubmitResp.ok pid, ps.map some ++ [some p]⟩ img outp st =
        (PRes.done Disposition.processedOk st2, evs) ∧
      submitTimes evs = [0] ∧
      statusTimes evs = 0 :: (List.range ps.length).map (fun i => 10 + 5 * i) := by
  have hsh := submit_ok_shape lf (SubmitResp.ok pid) img o h3
  have hpid : o.processId = some pid := by rw [hsh]; rfl
  have heq := process_image_processed lf ⟨SubmitResp.ok pid, ps.map some ++ [some p]⟩
    img outp st o pid ps p [] h1 h2 h3 hpid rfl h6 h7
  exact ⟨_, _, heq, submitTimes_trace (parentDir outp) outp p ps.length,
    statusTimes_trace (parentDir outp) outp p ps.length⟩

theorem C7_poll_timing_amended_w :
    ((⟨⟨0, 0, 0⟩, false, [], []⟩ : RunState).no_credits = false) ∧
    (∃ (st2 : RunState) (evs : List Event),
      process_image [] ⟨SubmitResp.ok ("p1"),
          [Payload.mk ("RUNNING") 1, Payload.mk ("RUNNING") 2].map some
            ++ [some ⟨("FINISHED"), 7⟩]⟩
        (Source.str ("http://h/a")) ("out/a.json") ⟨⟨0, 0, 0⟩, false, [], []⟩ =
        (PRes.done Disposition.processedOk st2, evs) ∧
      submitTimes evs = [0] ∧
      statusTimes evs =
        0 :: (List.range [Payload.mk ("RUNNING") 1, Payload.mk ("RUNNING") 2].length).map
          (fun i => 10 + 5 * i)) :=
  ⟨rfl,
   C7_poll_timing_amended [] ("p1") (Source.str ("http://h/a")) ("out/a.json")
     [⟨("RUNNING"), 1⟩, ⟨("RUNNING"), 2⟩] ⟨("FINISHED"), 7⟩ ⟨⟨0, 0, 0⟩, false, [], []⟩
     ⟨ImageField.imageUrl ("http://h/a"), some ("p1"), false⟩
     rfl rfl rfl (by decide) rfl⟩

/-- C8 counterexample: a source string beginning with "http" that is not a
well-formed URL fails the URL assertion inside the pipeline; the assertion
is not caught at the pipeline boundary: no counter is incremented for the
item and the whole batch is aborted, the second item never running. -/
theorem C8_assert_aborts_cex :
    runItems []
        [(⟨Source.str ("http:bad"), ("o/b.json")⟩, ⟨SubmitResp.ok ("p1"), []⟩),
         (⟨Source.str ("http://h/c"), ("o/c.json")⟩,
          ⟨SubmitResp.ok ("p2"), [some ⟨("FINISHED"), 1⟩]⟩)]
        ⟨⟨0, 0, 0⟩, false, [], []⟩ =
      (RunRes.aborted (PErr.badUrl ("http:bad")) ⟨⟨0, 0, 0⟩, false, [], [("o")]⟩,
       [Event.mkdirEv ("o")]) := by decide

/-- C8 amended: connection errors and non-2xx responses during submission,
and connection errors during polling, are caught and converted into exactly
one failed increment for the item; but a malformed source URL or a missing
local image file raises an assertion that is not caught at the pipeline
boundary: it increments no counter and aborts the batch. -/
theorem C8_error_handling_amended (lf : List (String × String)) :
    (∀ (env : ItemEnv) (img : Source) (outp : String) (st : RunState) (o : SubmitOut),
      st.no_credits = false → st.files.lookup outp = none →
      (env.submitResp = SubmitResp.connErr ∨ env.submitResp = SubmitResp.otherErr) →
      submit_image_for_processing lf env.submitResp img = Except.ok o →
      ∃ st2 : RunState,
        process_image lf env img outp st =
          (PRes.done Disposition.submitFailed st2,
           [Event.mkdirEv (parentDir outp), Event.submitReq]) ∧
        st2.counts.failed = st.counts.failed + 1 ∧
        st2.counts.processed = st.counts.processed ∧
        st2.counts.skipped = st.counts.skipped) ∧
    (∀ (env : ItemEnv) (img : Source) (outp : String) (st : RunState) (o : SubmitOut)
       (pid : String) (ps : List Payload) (junk : List (Option Payload)),
      st.no_credits = false → st.files.lookup outp = none →
      submit_image_for_processing lf env.submitResp img = Except.ok o →
      o.processId = some pid →
      env.polls = ps.map some ++ none :: junk →
      (∀ x ∈ ps, nonTerminal x.status = true) →
      ∃ (st2 : RunState) (evs : List Event),
        process_image lf env img outp st = (PRes.done Disposition.pollFailed st2, evs) ∧
        st2.counts.failed = st.counts.failed + 1 ∧
        st2.counts.processed = st.counts.processed ∧
        st2.counts.skipped = st.counts.skipped) ∧
    (∀ (w : WorkItem) (env : ItemEnv) (rest : List (WorkItem × ItemEnv)) (st : RunState)
       (e : PErr),
      st.no_credits = false → st.files.lookup w.dest = none →
      submit_image_for_processing lf env.submitResp w.image = Except.error e →
      ∃ st2 : RunState,
        runItems lf ((w, env) :: rest) st =
          (RunRes.aborted e st2, [Event.mkdirEv (parentDir w.dest)]) ∧
        st2.counts = st.counts) := by
  refine ⟨?_, ?_, ?_⟩
  · intro env img outp st o h1 h2 hkind hok
    have hsh := submit_ok_shape lf env.submitResp img o hok
    have hpid : o.processId = none := by
      rcases hkind with hk | hk <;> rw [hk] at hsh <;> rw [hsh] <;> rfl
    refine ⟨_, process_image_submit_failed lf env img outp st o h1 h2 hok hpid,
      ?_, ?_, ?_⟩ <;> simp [addFailed]
  · intro env img outp st o pid ps junk h1 h2 hok hpid hpolls hps
    refine ⟨_, _,
      process_image_poll_failed lf env img outp st o pid ps junk h1 h2 hok hpid hpolls hps,
      ?_, ?_, ?_⟩ <;> simp [addFailed]
  · intro w env rest st e h1 h2 herr
    refine ⟨{ st with dirs := parentDir w.dest :: st.dirs }, ?_, rfl⟩
    simp only [runItems, process_image_raised lf env w.image w.dest st e h1 h2 herr]

theorem C8_error_handling_amended_w :
    ((⟨⟨0, 0, 0⟩, false, [], []⟩ : RunState).no_credits = false) ∧
    ((⟨SubmitResp.connErr, []⟩ : ItemEnv).submitResp = SubmitResp.connErr ∨
      (⟨SubmitResp.connErr, []⟩ : ItemEnv).submitResp = SubmitResp.otherErr) ∧
    (∃ st2 : RunState,
      process_image [] ⟨SubmitResp.connErr, []⟩ (Source.str ("http://h/a")) ("o/a.json")
          ⟨⟨0, 0, 0⟩, false, [], []⟩ =
        (PRes.done Disposition.submitFailed st2,
         [Event.mkdirEv (parentDir ("o/a.json")), Event.submitReq]) ∧
      st2.counts.failed = 0 + 1 ∧ st2.counts.processed = 0 ∧ st2.counts.skipped = 0) ∧
    (∃ st2 : RunState,
      runItems []
          [(⟨Source.str ("http:bad"), ("o/b.json")⟩, ⟨SubmitResp.ok ("p1"), []⟩)]
          ⟨⟨0, 0, 0⟩, false, [], []⟩ =
        (RunRes.aborted (PErr.badUrl ("http:bad")) st2,
         [Event.mkdirEv (parentDir ("o/b.json"))]) ∧
      st2.counts = (⟨⟨0, 0, 0⟩, false, [], []⟩ : RunState).counts) :=
  ⟨rfl, Or.inl rfl,
   (C8_error_handling_amended []).1 ⟨SubmitResp.connErr, []⟩ (Source.str ("http://h/a"))
     ("o/a.json") ⟨⟨0, 0, 0⟩, false, [], []⟩
     ⟨ImageField.imageUrl ("http://h/a"), none, false⟩ rfl rfl (Or.inl rfl) rfl,
   (C8_error_handling_amended []).2.2 ⟨Source.str ("http:bad"), ("o/b.json")⟩
     ⟨SubmitResp.ok ("p1"), []⟩ [] ⟨⟨0, 0, 0⟩, false, [], []⟩
     (PErr.badUrl ("http:bad")) rfl rfl rfl⟩

/-- C9: a source is sent as a remote URL exactly when it is a string
beginning with "http" (the URL branch never consults the local filesystem,
so a local file whose name begins with "http" is classified as a URL and
never read from disk, and a malformed http-prefixed string fails the URL
assertion); every other source is treated as a local file path that must
exist and is embedded as a base64 payload of the file content. -/
theorem C9_source_classification (lf lf2 : List (String × String)) (resp : SubmitResp) :
    (∀ s : String, startsWithHttp s = true →
      submit_image_for_processing lf resp (Source.str s) =
        submit_image_for_processing lf2 resp (Source.str s) ∧
      (validate_url s = false →
        submit_image_for_processing lf resp (Source.str s) =
          Except.error (PErr.badUrl s)) ∧
      (validate_url s = true →
        submit_image_for_processing lf resp (Source.str s) =
          Except.ok (submitSend (ImageField.imageUrl s) resp))) ∧
    (∀ s : String, startsWithHttp s = false →
      (lf.lookup s = none →
        submit_image_for_processing lf resp (Source.str s) =
          Except.error (PErr.missingFile s)) ∧
      (∀ c : String, lf.lookup s = some c →
        submit_image_for_processing lf resp (Source.str s) =
          Except.ok (submitSend (ImageField.base64Data (get_image_as_base64 c)) resp))) ∧
    (∀ pth : String,
      (lf.lookup pth = none →
        submit_image_for_processing lf resp (Source.path pth) =
          Except.error (PErr.missingFile pth)) ∧
      (∀ c : String, lf.lookup pth = some c →
        submit_image_for_processing lf resp (Source.path pth) =
          Except.ok (submitSend (ImageField.base64Data (get_image_as_base64 c)) resp))) := by
  refine ⟨?_, ?_, ?_⟩
  · intro s hs
    refine ⟨?_, ?_, ?_⟩
    · simp [submit_image_for_processing, hs]
    · intro hv
      simp [submit_image_for_processing, hs, hv]
    · intro hv
      simp [submit_image_for_processing, hs, hv]
  · intro s hs
    refine ⟨?_, ?_⟩
    · intro hl
      simp [submit_image_for_processing, submitLocal, hs, hl]
    · intro c hl
      simp [submit_image_for_processing, submitLocal, hs, hl]
  · intro pth
    refine ⟨?_, ?_⟩
    · intro hl
      simp [submit_image_for_processing, submitLocal, hl]
    · intro c hl
      simp [submit_image_for_processing, submitLocal, hl]

theorem C9_source_classification_w :
    startsWithHttp ("http-named-local-file") = true ∧
    validate_url ("http-named-local-file") = false ∧
    startsWithHttp ("img.jpg") = false ∧
    (submit_image_for_processing [(("http-named-local-file"), ("bytes"))] SubmitResp.quota
        (Source.str ("http-named-local-file")) =
      submit_image_for_processing [] SubmitResp.quota
        (Source.str ("http-named-local-file"))) ∧
    (submit_image_for_processing [(("http-named-local-file"), ("bytes"))] SubmitResp.quota
        (Source.str ("http-named-local-file")) =
      Except.error (PErr.badUrl ("http-named-local-file"))) ∧
    (submit_image_for_processing [(("img.jpg"), ("x"))] SubmitResp.quota
        (Source.str ("img.jpg")) =
      Except.ok (submitSend
        (ImageField.base64Data (get_image_as_base64 ("x"))) SubmitResp.quota)) :=
  ⟨rfl, rfl, rfl,
   (C9_source_classification [(("http-named-local-file"), ("bytes"))] [] SubmitResp.quota).1
     ("http-named-local-file") rfl |>.1,
   ((C9_source_classification [(("http-named-local-file"), ("bytes"))] [] SubmitResp.quota).1
     ("http-named-local-file") rfl).2.1 rfl,
   ((C9_source_classification [(("img.jpg"), ("x"))] [] SubmitResp.quota).2.1
     ("img.jpg") rfl).2 ("x") rfl⟩

/-- C10: for every work item that passes the credit-exhaustion and skip
checks, the pipeline's first action is creating the destination's parent
directory (so it precedes any submission request); every terminal or raised
outcome keeps that directory in the created set, and the destination file is
written exactly on the processed disposition. -/
theorem C10_mkdir_and_write_frame (lf : List (String × String)) (env : ItemEnv)
    (img : Source) (outp : String) (st : RunState)
    (h1 : st.no_credits = false) (h2 : st.files.lookup outp = none) :
    (∃ rest : List Event,
      (process_image lf env img outp st).2 = Event.mkdirEv (parentDir outp) :: rest) ∧
    (∀ (d : Disposition) (st2 : RunState) (evs : List Event),
      process_image lf env img outp st = (PRes.done d st2, evs) →
      parentDir outp ∈ st2.dirs ∧
      (d ≠ Disposition.processedOk → st2.files = st.files) ∧
      (d = Disposition.processedOk →
        ∃ p : Payload, st2.files = (outp, p) :: st.files ∧ Event.writeEv outp p ∈ evs)) ∧
    (∀ (e : PErr) (st2 : RunState) (evs : List Event),
      process_image lf env img outp st = (PRes.raised e st2, evs) →
      parentDir outp ∈ st2.dirs) := by
  rcases hsub : submit_image_for_processing lf env.submitResp img with e | o
  · have heq := process_image_raised lf env img outp st e h1 h2 hsub
    refine ⟨⟨[], by rw [heq]⟩, ?_, ?_⟩
    · intro d st2 evs h
      rw [heq] at h
      simp at h
    · intro e2 st2 evs h
      rw [heq] at h
      simp only [Prod.mk.injEq, PRes.raised.injEq] at h
      obtain ⟨⟨-, hst⟩, -⟩ := h
      subst hst
      simp
  · rcases hpid : o.processId with _ | pid
    · have heq := process_image_submit_failed lf env img outp st o h1 h2 hsub hpid
      refine ⟨⟨[Event.submitReq], by rw [heq]⟩, ?_, ?_⟩
      · intro d st2 evs h
        rw [heq] at h
        simp only [Prod.mk.injEq, PRes.done.injEq] at h
        obtain ⟨⟨hd, hst⟩, -⟩ := h
        subst hst
        subst hd
        refine ⟨by simp [addFailed], fun _ => by simp [addFailed], fun hcon => ?_⟩
        exact absurd hcon (by simp)
      · intro e2 st2 evs h
        rw [heq] at h
        simp at h
    · rcases hpolls : env.polls with _ | ⟨r, rs⟩
      · have heq : process_image lf env img outp st =
            (PRes.hung { st with no_credits := o.quotaHit, dirs := parentDir outp :: st.dirs },
             [Event.mkdirEv (parentDir outp), Event.submitReq]) := by
          simp [process_image, h1, h2, hsub, hpid, hpolls]
        refine ⟨⟨[Event.submitReq], by rw [heq]⟩, ?_, ?_⟩
        · intro d st2 evs h
          rw [heq] at h
          simp at h
        · intro e2 st2 evs h
          rw [heq] at h
          simp at h
      · rcases hres : (pollLoopAux r rs).1 with _ | fin
        · have heq : process_image lf env img outp st =
              (PRes.hung
                { st with no_credits := o.quotaHit, dirs := parentDir outp :: st.dirs },
               [Event.mkdirEv (parentDir outp), Event.submitReq, Event.statusReq,
                Event.sleepEv 5] ++ (pollLoopAux r rs).2) := by
            simp [process_image, h1, h2, hsub, hpid, hpolls, hres]
          refine ⟨⟨[Event.submitReq, Event.statusReq, Event.sleepEv 5]
              ++ (pollLoopAux r rs).2, by rw [heq]; simp⟩, ?_, ?_⟩
          · intro d st2 evs h
            rw [heq] at h
            simp at h
          · intro e2 st2 evs h
            rw [heq] at h
            simp at h
        · rcases fin with _ | p
          · have heq : process_image lf env img outp st =
                (PRes.done Disposition.pollFailed
                  (addFailed
                    { st with no_credits := o.quotaHit, dirs := parentDir outp :: st.dirs }),
                 [Event.mkdirEv (parentDir outp), Event.submitReq, Event.statusReq,
                  Event.sleepEv 5] ++ (pollLoopAux r rs).2) := by
              simp [process_image, h1, h2, hsub, hpid, hpolls, hres, addFailed]
            refine ⟨⟨[Event.submitReq, Event.statusReq, Event.sleepEv 5]
                ++ (pollLoopAux r rs).2, by rw [heq]; simp⟩, ?_, ?_⟩
            · intro d st2 evs h
              rw [heq] at h
              simp only [Prod.mk.injEq, PRes.done.injEq] at h
              obtain ⟨⟨hd, hst⟩, -⟩ := h
              subst hst
              subst hd
              refine ⟨by simp [addFailed], fun _ => by simp [addFailed], fun hcon => ?_⟩
              exact absurd hcon (by simp)
            · intro e2 st2 evs h
              rw [heq] at h
              simp at h
          · have heq : process_image lf env img outp st =
                (PRes.done Disposition.processedOk
                  { st with
                    counts := { st.counts with processed := st.counts.processed + 1 },
                    no_credits := o.quotaHit,
                    files := (outp, p) :: st.files,
                    dirs := parentDir outp :: st.dirs },
                 [Event.mkdirEv (parentDir outp), Event.submitReq, Event.statusReq,
                  Event.sleepEv 5] ++ (pollLoopAux r rs).2 ++ [Event.writeEv outp p]) := by
              simp [process_image, h1, h2, hsub, hpid, hpolls, hres]
            refine ⟨⟨[Event.submitReq, Event.statusReq, Event.sleepEv 5]
                ++ (pollLoopAux r rs).2 ++ [Event.writeEv outp p], by rw [heq]; simp⟩, ?_, ?_⟩
            · intro d st2 evs h
              rw [heq] at h
              simp only [Prod.mk.injEq, PRes.done.injEq] at h
              obtain ⟨⟨hd, hst⟩, hev⟩ := h
              subst hst
              subst hd
              refine ⟨by simp, fun hcon => absurd rfl hcon, fun _ => ⟨p, by simp, ?_⟩⟩
              rw [← hev]
              simp
            · intro e2 st2 evs h
              rw [heq] at h
              simp at h

theorem C10_mkdir_and_write_frame_w :
    ((⟨⟨0, 0, 0⟩, false, [], []⟩ : RunState).no_credits = false) ∧
    (∃ rest : List Event,
      (process_image [] ⟨SubmitResp.ok ("p1"), [some ⟨("FINISHED"), 7⟩]⟩
          (Source.str ("http://h/a")) ("out/a.json")
          ⟨⟨0, 0, 0⟩, false, [], []⟩).2 =
        Event.mkdirEv (parentDir ("out/a.json")) :: rest) :=
  ⟨rfl,
   (C10_mkdir_and_write_frame [] ⟨SubmitResp.ok ("p1"), [some ⟨("FINISHED"), 7⟩]⟩
     (Source.str ("http://h/a")) ("out/a.json") ⟨⟨0, 0, 0⟩, false, [], []⟩ rfl rfl).1⟩

end Transkribus
